import Mathlib

/-!
Verification of the makebio project-scaffolding tool (`src/makebio/cli.py`)
against its natural-language specification.

The filesystem is shallowly embedded as a partial map from paths to nodes
(directory / file / symlink), mirroring the pathlib and os primitives the
tool uses.  Paths follow pathlib: an absoluteness flag plus a component
list; `Path.join` is pathlib's `/` restricted to single components, which
is the only way the tool builds paths.
-/

set_option maxHeartbeats 1000000
set_option linter.unusedVariables false

namespace Makebio

/-- A pathlib-style path: absoluteness flag plus the list of components. -/
structure Path where
  absolute : Bool
  components : List String
deriving DecidableEq, Repr

/-- pathlib `/`: append one component (the tool only appends single names). -/
def Path.join (p : Path) (c : String) : Path :=
  ⟨p.absolute, p.components ++ [c]⟩

/-- pathlib `Path.name`: the final component (empty for a bare root). -/
def Path.name (p : Path) : String :=
  p.components.getLast?.getD ""

/-- pathlib `Path.parent`: drop the final component. -/
def Path.parent (p : Path) : Path :=
  ⟨p.absolute, p.components.dropLast⟩

/-- All proper ancestor paths, shortest first: created by `mkdir(parents=True)`. -/
def Path.ancestors (p : Path) : List Path :=
  (List.range p.components.length).map (fun k => ⟨p.absolute, p.components.take k⟩)

/-- pathlib `Path.expanduser`: expand a leading tilde to the home directory. -/
def Path.expanduser (home : Path) (p : Path) : Path :=
  match p.components with
  | "~" :: rest => ⟨home.absolute, home.components ++ rest⟩
  | _ => p

/-- pathlib `Path.absolute()`: prepend the working directory when relative. -/
def Path.toAbsolute (cwd : Path) (p : Path) : Path :=
  if p.absolute then p else ⟨true, cwd.components ++ p.components⟩

/-- If `q` lies in the subtree rooted at `base`, the residual component list. -/
def Path.under (base q : Path) : Option (List String) :=
  if base.absolute = q.absolute ∧ base.components = q.components.take base.components.length
  then some (q.components.drop base.components.length)
  else none

/-- A filesystem node: directory or plain file (with permission bits) or symlink. -/
inductive Node where
  | dir (mode : Nat)
  | file (mode : Nat)
  | symlink (target : Path)
deriving DecidableEq, Repr

/-- Exchange a node's permission bits (`chmod`); symlink modes are not tracked. -/
def Node.withMode : Node → Nat → Node
  | .dir _, m => .dir m
  | .file _, m => .file m
  | .symlink t, _ => .symlink t

/-- A filesystem state: a partial map from paths to nodes. -/
def FS : Type := Path → Option Node

def emptyFS : FS := fun _ => none

def FS.lookup (fs : FS) (p : Path) : Option Node := fs p

/-- pathlib `Path.exists`. -/
def FS.pathExists (fs : FS) (p : Path) : Bool := (fs p).isSome

/-- pathlib `Path.is_dir` (on the node itself; the tool never probes through links). -/
def FS.isDir (fs : FS) (p : Path) : Bool :=
  match fs p with
  | some (.dir _) => true
  | _ => false

def FS.set (fs : FS) (p : Path) (n : Node) : FS :=
  fun q => if q = p then some n else fs q

/-- Errors raised by the filesystem primitives, named after the Python exceptions. -/
inductive FsError where
  | alreadyExists (p : Path)
  | notFound (p : Path)
  | dstExists (p : Path)
deriving DecidableEq, Repr

/-- Create every missing ancestor as a default-mode directory (`parents=True`). -/
def FS.mkParents (fs : FS) : List Path → FS
  | [] => fs
  | a :: rest => FS.mkParents (if fs.pathExists a then fs else fs.set a (.dir 511)) rest

/-- `Path.mkdir(mode=mode, parents=True)`: fail if the leaf exists, create
missing ancestors, then the leaf. -/
def FS.mkdirP (fs : FS) (p : Path) (mode : Nat) : Except FsError FS :=
  if fs.pathExists p then .error (.alreadyExists p)
  else .ok ((fs.mkParents p.ancestors).set p (.dir mode))

/-- `Path.mkdir()` without `parents`: the parent must already exist. -/
def FS.mkdir1 (fs : FS) (p : Path) (mode : Nat) : Except FsError FS :=
  if fs.pathExists p then .error (.alreadyExists p)
  else if !fs.pathExists p.parent then .error (.notFound p.parent)
  else .ok (fs.set p (.dir mode))

/-- `Path.symlink_to(target)`: store the target path verbatim in a fresh link node. -/
def FS.symlinkTo (fs : FS) (p : Path) (target : Path) : Except FsError FS :=
  if fs.pathExists p then .error (.alreadyExists p)
  else if !fs.pathExists p.parent then .error (.notFound p.parent)
  else .ok (fs.set p (.symlink target))

/-- `open(p, "w")` / `shutil.copyfile` destination: create or overwrite a file. -/
def FS.writeFile (fs : FS) (p : Path) : FS := fs.set p (.file 420)

/-- The state after moving the subtree at `src` onto `dst`: paths below `dst`
read from the corresponding path below `src`, the `src` subtree is gone, and
everything else is untouched. -/
def moved (fs : FS) (src dst : Path) : FS := fun q =>
  match Path.under dst q with
  | some rest => fs ⟨src.absolute, src.components ++ rest⟩
  | none => if (Path.under src q).isSome then none else fs q

/-- `os.rename`: move the subtree at `old` to `new`.  Renaming onto an existing
destination is modelled as an error (the empty-directory overwrite corner of
POSIX rename is never exercised by the tool). -/
def FS.renameFS (fs : FS) (old new : Path) : Except FsError FS :=
  if !fs.pathExists old then .error (.notFound old)
  else if fs.pathExists new then .error (.dstExists new)
  else .ok (moved fs old new)

/-- `os.replace`: atomically move `src` over `dst`, overwriting a non-directory
destination.  A directory destination is an error (the tool only ever replaces
a symlink, so the empty-directory corner of POSIX rename is not modelled). -/
def FS.replaceFS (fs : FS) (src dst : Path) : Except FsError FS :=
  if !fs.pathExists src then .error (.notFound src)
  else if fs.isDir dst then .error (.dstExists dst)
  else .ok (moved fs src dst)

/-- Outcome of one CLI command: clean exit, a reported fatal error (the
exception the code catches or checks for), or an uncaught Python exception. -/
inductive Outcome where
  | ok
  | fatal (e : FsError)
  | crash (e : FsError)
deriving DecidableEq, Repr

/-! ## `setup_config_and_dir` and the `init` command (cli.py lines 100-175)

The filesystem-mutating part of `setup_config_and_dir` is a fixed sequence of
primitive steps; representing it as an explicit operation list lets us talk
about every intermediate state (list prefixes), which claim C6 requires. -/

/-- One primitive filesystem step of `setup_config_and_dir`. -/
inductive Op where
  | mkdirP (p : Path) (mode : Nat)
  | mkdir1 (p : Path) (mode : Nat)
  | symlink (p : Path) (target : Path)
  | writeF (p : Path)
deriving DecidableEq, Repr

def applyOp (fs : FS) : Op → Except FsError FS
  | .mkdirP p m => fs.mkdirP p m
  | .mkdir1 p m => fs.mkdir1 p m
  | .symlink p t => fs.symlinkTo p t
  | .writeF p => .ok (fs.writeFile p)

/-- Run steps in order; on the first failure stop with the state reached so
far (an uncaught exception aborts `setup_config_and_dir` mid-way). -/
def runOps (fs : FS) : List Op → FS × Option FsError
  | [] => (fs, none)
  | op :: rest =>
    match applyOp fs op with
    | .error e => (fs, some e)
    | .ok fs' => runOps fs' rest

/-- The filesystem steps of `setup_config_and_dir` (cli.py lines 122-143), in
source order: scratch-side targets first, then the home tree, the two
symlinks, the copied `.gitignore` (when `git` is set), and finally the config
file written by the `project.config` setter (at `src.absolute()`, which is
what the setter reads back from `params.root`). -/
def setupOps (cwd src linkto : Path) (git : Bool) : List Op :=
  [ .mkdirP ((linkto.join src.name).join "work") 511,
    .mkdirP ((linkto.join src.name).join "data") 511,
    .mkdirP src 0o744,
    .mkdir1 (src.join "control") 511,
    .mkdir1 (src.join "notebooks") 511,
    .mkdir1 (src.join "bin") 511,
    .mkdir1 (src.join "src") 511,
    .symlink (src.join "work") ((linkto.join src.name).join "work"),
    .symlink (src.join "data") ((linkto.join src.name).join "data") ]
  ++ (if git then [.writeF (src.join ".gitignore")] else [])
  ++ [ .writeF ((Path.toAbsolute cwd src).join "makebio.toml") ]

/-- The `init` command (cli.py lines 154-175) followed by
`setup_config_and_dir`: expand the arguments, fail fast when `src` or
`linkto/src.name` already exists, honour the early return taken when the
working directory already holds a `makebio.toml` (`cwdConfigFound`), and
otherwise run the setup steps.  The interactive prompts and the external
`git init` subprocess touch no modelled filesystem state. -/
def init (fs : FS) (cwd home srcArg linktoArg : Path) (git cwdConfigFound : Bool) :
    FS × Outcome :=
  let src := Path.expanduser home srcArg
  let linkto := Path.expanduser home linktoArg
  if fs.pathExists src then (fs, .fatal (.alreadyExists src))
  else if fs.pathExists (linkto.join src.name) then
    (fs, .fatal (.alreadyExists (linkto.join src.name)))
  else if cwdConfigFound then (fs, .ok)
  else
    match runOps fs (setupOps cwd src linkto git) with
    | (fs', none) => (fs', .ok)
    | (fs', some e) => (fs', .crash e)

/-! ## `add_analysis` and `add_data` (cli.py lines 182-202 and 296-312) -/

/-- The entry name: `YYYY-MM-DD_name` when the date prefix is on, else `name`. -/
def dirNameOf (withDate : Bool) (today name : String) : String :=
  (if withDate then today ++ "_" else "") ++ name

/-- `root / "control" / dir_name`. -/
def controlEntry (root : Path) (dn : String) : Path := (root.join "control").join dn

/-- `root / "work" / dir_name`. -/
def workEntry (root : Path) (dn : String) : Path := (root.join "work").join dn

/-- `root / "data" / dir_name`. -/
def dataEntry (root : Path) (dn : String) : Path := (root.join "data").join dn

/-- `add_analysis`: create `control/dir_name` and `work/dir_name`, then the
`work` symlink inside the control half.  `FileExistsError` is caught and
reported; any other error escapes. -/
def add_analysis (fs : FS) (root : Path) (name : String) (withDate : Bool)
    (today : String) : FS × Outcome :=
  let dn := dirNameOf withDate today name
  let c := controlEntry root dn
  let w := workEntry root dn
  match fs.mkdirP c 511 with
  | .error (.alreadyExists p) => (fs, .fatal (.alreadyExists p))
  | .error e => (fs, .crash e)
  | .ok fs1 =>
    match fs1.mkdirP w 511 with
    | .error (.alreadyExists p) => (fs1, .fatal (.alreadyExists p))
    | .error e => (fs1, .crash e)
    | .ok fs2 =>
      match fs2.symlinkTo (c.join "work") w with
      | .error (.alreadyExists p) => (fs2, .fatal (.alreadyExists p))
      | .error e => (fs2, .crash e)
      | .ok fs3 => (fs3, .ok)

/-- `add_data`: create `control/dir_name` and `data/dir_name` (no symlink). -/
def add_data (fs : FS) (root : Path) (name : String) (withDate : Bool)
    (today : String) : FS × Outcome :=
  let dn := dirNameOf withDate today name
  let c := controlEntry root dn
  let d := dataEntry root dn
  match fs.mkdirP c 511 with
  | .error (.alreadyExists p) => (fs, .fatal (.alreadyExists p))
  | .error e => (fs, .crash e)
  | .ok fs1 =>
    match fs1.mkdirP d 511 with
    | .error (.alreadyExists p) => (fs1, .fatal (.alreadyExists p))
    | .error e => (fs1, .crash e)
    | .ok fs2 => (fs2, .ok)

/-! ## `rename_analysis` (cli.py lines 256-289) -/

/-- `rename_analysis`: precondition checks on the control pair, a dry-run
early exit, then rename control, rename work, create the `tmp` symlink and
atomically substitute it for `work`.  Only `FileExistsError` is caught. -/
def rename_analysis (fs : FS) (root : Path) (old new : String) (dryRun : Bool) :
    FS × Outcome :=
  let oldP := controlEntry root old
  let newP := controlEntry root new
  if !fs.pathExists oldP then (fs, .fatal (.notFound oldP))
  else if fs.pathExists newP then (fs, .fatal (.alreadyExists newP))
  else if dryRun then (fs, .ok)
  else
    match fs.renameFS oldP newP with
    | .error (.alreadyExists p) => (fs, .fatal (.alreadyExists p))
    | .error e => (fs, .crash e)
    | .ok fs1 =>
      match fs1.renameFS (workEntry root old) (workEntry root new) with
      | .error (.alreadyExists p) => (fs1, .fatal (.alreadyExists p))
      | .error e => (fs1, .crash e)
      | .ok fs2 =>
        match fs2.symlinkTo (newP.join "tmp") (workEntry root new) with
        | .error (.alreadyExists p) => (fs2, .fatal (.alreadyExists p))
        | .error e => (fs2, .crash e)
        | .ok fs3 =>
          match fs3.replaceFS (newP.join "tmp") (newP.join "work") with
          | .error (.alreadyExists p) => (fs3, .fatal (.alreadyExists p))
          | .error e => (fs3, .crash e)
          | .ok fs4 => (fs4, .ok)

/-! ## `freeze` (cli.py lines 319-335) -/

def S_IREAD : Nat := 0o400
def S_IRGRP : Nat := 0o040
def S_ISVTX : Nat := 0o1000
def S_IXUSR : Nat := 0o100
def S_IXGRP : Nat := 0o010

/-- `os.chmod`: replace the permission bits of the node at `p` (no-op when
the path is absent; click guarantees existence before `freeze` runs). -/
def chmodPath (fs : FS) (p : Path) (mode : Nat) : FS :=
  fun q => if q = p then (fs p).map (fun n => n.withMode mode) else fs q

/-- `freeze`: read bits, sticky bit, and (for directories only) the
owner/group execute bits.  The `recursive` flag is accepted but never read
by the function body. -/
def freeze (fs : FS) (path : Path) (recursive : Bool) : FS :=
  if fs.isDir path then
    chmodPath fs path (S_IREAD ||| S_IRGRP ||| S_ISVTX ||| S_IXUSR ||| S_IXGRP)
  else
    chmodPath fs path (S_IREAD ||| S_IRGRP ||| S_ISVTX)

/-! ## `save` (cli.py lines 341-376)

The external git collaborator is modelled by the state the `save` command
reads and writes: whether the directory is a work tree, the list of pending
status lines (`git status -s`, one line per modified/deleted/untracked file),
and the commit list (most recent first).  Commit identifiers are modelled as
distinct naturals produced at commit time; `metadata.last_commit` is an
`Option` whose `none` is the `"null"` sentinel. -/

structure StatusLine where
  code : String
  fname : String
deriving DecidableEq, Repr

structure GitState where
  inTree : Bool
  pending : List StatusLine
  commits : List Nat
deriving DecidableEq, Repr

structure ProjectMeta where
  lastCommit : Option Nat
deriving DecidableEq, Repr

/-- `git status -s` output, `.strip().split()`: every status line contributes
its code and its file name (names are whitespace-free). -/
def statusTokens (g : GitState) : List String :=
  (g.pending.map (fun l => [l.code, l.fname])).flatten

/-- The identifier of the commit `git commit` would create next. -/
def freshId (g : GitState) : Nat := g.commits.length

/-- `save`: ensure a work tree, bail out when fewer than two status tokens
remain, otherwise stage everything, commit once, and record the new head in
`metadata.last_commit`. -/
def save (g : GitState) (meta : ProjectMeta) : GitState × ProjectMeta :=
  let g1 := if g.inTree then g else { g with inTree := true }
  if (statusTokens g1).length < 2 then (g1, meta)
  else
    let cid := freshId g1
    ({ g1 with pending := [], commits := cid :: g1.commits },
     { meta with lastCommit := some cid })

/-! ## Helper lemmas about paths and filesystem primitives -/

lemma Path.join_ne_join_last (p q : Path) (a b : String) (h : a ≠ b) :
    p.join a ≠ q.join b := by
  intro he
  apply h
  have h2 := congrArg (fun r => r.components.getLast?) he
  simpa [Path.join] using h2

lemma Path.ne_join_of_le (p q : Path) (a : String)
    (h : p.components.length ≤ q.components.length) : p ≠ q.join a := by
  intro he
  have h2 := congrArg (fun r => r.components.length) he
  simp [Path.join] at h2
  omega

lemma Path.join_ne_of_mid (root : Path) (a b x y : String) (h : a ≠ b) :
    (root.join a).join x ≠ (root.join b).join y := by
  intro he
  apply h
  have h2 := congrArg Path.components he
  simp [Path.join] at h2
  exact h2.1

lemma Path.parent_join (p : Path) (a : String) : (p.join a).parent = p := by
  simp [Path.join, Path.parent]

lemma FS.lookup_set (fs : FS) (p q : Path) (n : Node) :
    (fs.set p n).lookup q = if q = p then some n else fs.lookup q := rfl

lemma FS.pathExists_set_self (fs : FS) (p : Path) (n : Node) :
    (fs.set p n).pathExists p = true := by
  simp [FS.set, FS.pathExists]

lemma FS.pathExists_set_ne (fs : FS) (p q : Path) (n : Node) (h : q ≠ p) :
    (fs.set p n).pathExists q = fs.pathExists q := by
  simp [FS.set, FS.pathExists, h]

lemma FS.pathExists_set_mono (fs : FS) (p q : Path) (n : Node)
    (h : fs.pathExists q = true) : (fs.set p n).pathExists q = true := by
  by_cases hq : q = p
  · subst hq; exact fs.pathExists_set_self q n
  · rw [fs.pathExists_set_ne p q n hq]; exact h

lemma FS.mkParents_id (fs : FS) (l : List Path)
    (h : ∀ a ∈ l, fs.pathExists a = true) : fs.mkParents l = fs := by
  induction l with
  | nil => rfl
  | cons a t ih =>
    unfold FS.mkParents
    rw [if_pos (h a (List.mem_cons_self a t))]
    exact ih (fun b hb => h b (List.mem_cons_of_mem a hb))

lemma FS.pathExists_mkParents_mono (fs : FS) (l : List Path) (q : Path)
    (h : fs.pathExists q = true) : (fs.mkParents l).pathExists q = true := by
  induction l generalizing fs with
  | nil => exact h
  | cons a t ih =>
    unfold FS.mkParents
    by_cases hc : fs.pathExists a
    · rw [if_pos hc]; exact ih fs h
    · rw [if_neg hc]; exact ih _ (fs.pathExists_set_mono a q (.dir 511) h)

lemma FS.lookup_mkParents_symlink (fs : FS) (l : List Path) (q tgt : Path)
    (h : (fs.mkParents l).lookup q = some (.symlink tgt)) :
    fs.lookup q = some (.symlink tgt) := by
  induction l generalizing fs with
  | nil => exact h
  | cons a t ih =>
    unfold FS.mkParents at h
    by_cases hc : fs.pathExists a
    · rw [if_pos hc] at h; exact ih fs h
    · rw [if_neg hc] at h
      have h2 := ih _ h
      rw [FS.lookup_set] at h2
      by_cases hq : q = a
      · rw [if_pos hq] at h2; cases h2
      · rwa [if_neg hq] at h2

lemma FS.mkdirP_ok (fs fs' : FS) (p : Path) (m : Nat)
    (h : fs.mkdirP p m = .ok fs') :
    fs' = (fs.mkParents p.ancestors).set p (.dir m) ∧ fs.pathExists p = false := by
  unfold FS.mkdirP at h
  by_cases hc : fs.pathExists p
  · rw [if_pos hc] at h; cases h
  · rw [if_neg hc] at h
    exact ⟨(Except.ok.injEq _ _).mp h.symm, by simpa using hc⟩

lemma FS.mkdir1_ok (fs fs' : FS) (p : Path) (m : Nat)
    (h : fs.mkdir1 p m = .ok fs') :
    fs' = fs.set p (.dir m) ∧ fs.pathExists p = false := by
  unfold FS.mkdir1 at h
  by_cases hc : fs.pathExists p
  · rw [if_pos hc] at h; cases h
  · rw [if_neg hc] at h
    by_cases hp : fs.pathExists p.parent
    · simp only [hp, Bool.not_true, Bool.false_eq_true, if_false] at h
      exact ⟨(Except.ok.injEq _ _).mp h.symm, by simpa using hc⟩
    · simp only [Bool.not_eq_true] at hp
      rw [hp] at h
      simp at h

lemma FS.symlinkTo_ok (fs fs' : FS) (p tgt : Path)
    (h : fs.symlinkTo p tgt = .ok fs') :
    fs' = fs.set p (.symlink tgt) ∧ fs.pathExists p = false := by
  unfold FS.symlinkTo at h
  by_cases hc : fs.pathExists p
  · rw [if_pos hc] at h; cases h
  · rw [if_neg hc] at h
    by_cases hp : fs.pathExists p.parent
    · simp only [hp, Bool.not_true, Bool.false_eq_true, if_false] at h
      exact ⟨(Except.ok.injEq _ _).mp h.symm, by simpa using hc⟩
    · simp only [Bool.not_eq_true] at hp
      rw [hp] at h
      simp at h

/-! ### Evaluating `Path.under` and `moved` on the path shapes the rename uses -/

lemma Path.under_self (b : Path) : Path.under b b = some [] := by
  unfold Path.under
  rw [if_pos ⟨rfl, (List.take_length b.components).symm⟩, List.drop_length]

lemma Path.under_of_longer (base q : Path)
    (h : q.components.length < base.components.length) : Path.under base q = none := by
  unfold Path.under
  rw [if_neg]
  rintro ⟨-, h2⟩
  have h3 := congrArg List.length h2
  simp only [List.length_take] at h3
  omega

lemma Path.under_pp_ne (ab : Bool) (rc : List String) (a b c d : String)
    (h : a ≠ c ∨ b ≠ d) :
    Path.under ⟨ab, rc ++ [a, b]⟩ ⟨ab, rc ++ [c, d]⟩ = none := by
  unfold Path.under
  rw [if_neg]
  rintro ⟨-, h2⟩
  rw [show (rc ++ [a, b]).length = (rc ++ [c, d]).length by simp, List.take_length] at h2
  have h3 := List.append_cancel_left h2
  simp only [List.cons.injEq, and_true] at h3
  rcases h with h | h
  · exact h h3.1
  · exact h h3.2

lemma Path.under_pp_triple (ab : Bool) (rc : List String) (a b e : String) :
    Path.under ⟨ab, rc ++ [a, b]⟩ ⟨ab, rc ++ [a, b, e]⟩ = some [e] := by
  unfold Path.under
  rw [show rc ++ [a, b, e] = (rc ++ [a, b]) ++ [e] by simp, List.take_left,
    List.drop_left, if_pos ⟨rfl, rfl⟩]

lemma Path.under_pp_triple_ne (ab : Bool) (rc : List String) (a b c d e : String)
    (h : a ≠ c ∨ b ≠ d) :
    Path.under ⟨ab, rc ++ [a, b]⟩ ⟨ab, rc ++ [c, d, e]⟩ = none := by
  unfold Path.under
  rw [if_neg]
  rintro ⟨-, h2⟩
  rw [show rc ++ [c, d, e] = (rc ++ [c, d]) ++ [e] by simp,
    show (rc ++ [a, b]).length = (rc ++ [c, d]).length by simp, List.take_left] at h2
  have h3 := List.append_cancel_left h2
  simp only [List.cons.injEq, and_true] at h3
  rcases h with h | h
  · exact h h3.1
  · exact h h3.2

lemma Path.mk_ne_of_getLast (ab ab' : Bool) (l l' : List String)
    (h : l.getLast? ≠ l'.getLast?) : (⟨ab, l⟩ : Path) ≠ ⟨ab', l'⟩ := by
  intro he
  apply h
  have h2 := congrArg (fun r => r.components.getLast?) he
  simpa using h2

lemma Path.mk_ne_of_length (ab ab' : Bool) (l l' : List String)
    (h : l.length ≠ l'.length) : (⟨ab, l⟩ : Path) ≠ ⟨ab', l'⟩ := by
  intro he
  apply h
  have h2 := congrArg (fun r => r.components.length) he
  simpa using h2

lemma last2 (rc : List String) (a b : String) : (rc ++ [a, b]).getLast? = some b := by
  rw [show rc ++ [a, b] = (rc ++ [a]) ++ [b] by simp, List.getLast?_concat]

lemma last3 (rc : List String) (a b c : String) :
    (rc ++ [a, b, c]).getLast? = some c := by
  rw [show rc ++ [a, b, c] = (rc ++ [a, b]) ++ [c] by simp, List.getLast?_concat]

lemma moved_eval (fs : FS) (src dst q : Path) :
    moved fs src dst q = match Path.under dst q with
      | some rest => fs ⟨src.absolute, src.components ++ rest⟩
      | none => if (Path.under src q).isSome then none else fs q := rfl

lemma FS.renameFS_ok_eq (fs : FS) (old new : Path)
    (ho : fs.pathExists old = true) (hn : fs.pathExists new = false) :
    fs.renameFS old new = .ok (moved fs old new) := by
  unfold FS.renameFS
  rw [ho, hn]
  simp

lemma FS.replaceFS_ok_eq (fs : FS) (src dst : Path)
    (hs : fs.pathExists src = true) (hd : fs.isDir dst = false) :
    fs.replaceFS src dst = .ok (moved fs src dst) := by
  unfold FS.replaceFS
  rw [hs, hd]
  simp

lemma FS.isDir_congr (fs gs : FS) (p q : Path) (h : fs p = gs q) :
    fs.isDir p = gs.isDir q := by
  unfold FS.isDir
  rw [h]

lemma controlEntry_eq (root : Path) (x : String) :
    controlEntry root x = ⟨root.absolute, root.components ++ ["control", x]⟩ := by
  simp [controlEntry, Path.join]

lemma workEntry_eq (root : Path) (x : String) :
    workEntry root x = ⟨root.absolute, root.components ++ ["work", x]⟩ := by
  simp [workEntry, Path.join]

lemma controlEntry_join_eq (root : Path) (x y : String) :
    (controlEntry root x).join y =
      ⟨root.absolute, root.components ++ ["control", x, y]⟩ := by
  simp [controlEntry, Path.join]

lemma Path.toAbsolute_len (cwd p : Path) :
    p.components.length ≤ (Path.toAbsolute cwd p).components.length := by
  unfold Path.toAbsolute
  split
  · exact le_rfl
  · simp

lemma runOps_cons (fs : FS) (op : Op) (rest : List Op) :
    runOps fs (op :: rest) = match applyOp fs op with
      | .error e => (fs, some e)
      | .ok fs' => runOps fs' rest := rfl

lemma runOps_cons_none (fs fs'' : FS) (op : Op) (rest : List Op) :
    runOps fs (op :: rest) = (fs'', none) ↔
      ∃ fs1, applyOp fs op = .ok fs1 ∧ runOps fs1 rest = (fs'', none) := by
  rw [runOps_cons]
  cases h : applyOp fs op with
  | error e => simp
  | ok f => simp

lemma runOps_append_none (l₁ l₂ : List Op) (fs fs'' : FS)
    (h : runOps fs (l₁ ++ l₂) = (fs'', none)) :
    ∃ fsm, runOps fs l₁ = (fsm, none) ∧ runOps fsm l₂ = (fs'', none) := by
  induction l₁ generalizing fs with
  | nil => exact ⟨fs, rfl, h⟩
  | cons op t ih =>
    rw [List.cons_append, runOps_cons_none] at h
    obtain ⟨fs1, ha, h⟩ := h
    obtain ⟨fsm, h1, h2⟩ := ih fs1 h
    exact ⟨fsm, (runOps_cons_none fs fsm op t).mpr ⟨fs1, ha, h1⟩, h2⟩

lemma runOps_writeF_preserves (l : List Op) (q : Path)
    (hl : ∀ op ∈ l, ∃ p, op = Op.writeF p ∧ p ≠ q) (fs : FS) :
    (runOps fs l).1.lookup q = fs.lookup q := by
  induction l generalizing fs with
  | nil => rfl
  | cons op t ih =>
    obtain ⟨p, rfl, hpq⟩ := hl op (List.mem_cons_self op t)
    simp only [runOps, applyOp]
    rw [ih (fun o ho => hl o (List.mem_cons_of_mem _ ho))]
    simp [FS.writeFile, FS.lookup_set, FS.lookup, FS.set, hpq.symm]

/-- Shape of a successful `init` run: the two symlinks point at
`linkto/src.name/{work,data}` verbatim, and `src` is a directory with mode
0o744. -/
lemma init_ok_shape (fs fs' : FS) (cwd home srcArg linktoArg : Path) (git : Bool)
    (h : init fs cwd home srcArg linktoArg git false = (fs', .ok)) :
    fs'.lookup ((Path.expanduser home srcArg).join "work") =
      some (.symlink (((Path.expanduser home linktoArg).join
        (Path.expanduser home srcArg).name).join "work")) ∧
    fs'.lookup ((Path.expanduser home srcArg).join "data") =
      some (.symlink (((Path.expanduser home linktoArg).join
        (Path.expanduser home srcArg).name).join "data")) ∧
    fs'.lookup (Path.expanduser home srcArg) = some (.dir 0o744) := by
  set src := Path.expanduser home srcArg with hsrcdef
  set linkto := Path.expanduser home linktoArg with hlkdef
  simp only [init] at h
  split at h
  · simp at h
  · split at h
    · simp at h
    · rw [if_neg (by simp)] at h
      split at h
      case _ fs'' heq =>
        have hfs : fs' = fs'' := by
          have h2 := congrArg Prod.fst h
          have h3 : fs'' = fs' := by simpa using h2
          exact h3.symm
        subst hfs
        simp only [setupOps] at heq
        rw [List.append_assoc] at heq
        obtain ⟨fsm, h9, hsuf⟩ := runOps_append_none _ _ _ _ heq
        have hpres : ∀ q : Path, src.join ".gitignore" ≠ q →
            (Path.toAbsolute cwd src).join "makebio.toml" ≠ q →
            fs'.lookup q = fsm.lookup q := by
          intro q h1 h2
          have hl : ∀ op ∈ ((if git then [Op.writeF (src.join ".gitignore")] else []) ++
              [Op.writeF ((Path.toAbsolute cwd src).join "makebio.toml")]),
              ∃ p, op = Op.writeF p ∧ p ≠ q := by
            intro op hop
            rcases List.mem_append.mp hop with hop | hop
            · cases git with
              | false => simp at hop
              | true =>
                simp at hop
                subst hop
                exact ⟨_, rfl, h1⟩
            · simp at hop
              subst hop
              exact ⟨_, rfl, h2⟩
          have hp := runOps_writeF_preserves _ q hl fsm
          rw [hsuf] at hp
          exact hp
        rw [runOps_cons_none] at h9
        obtain ⟨f1, a1, h9⟩ := h9
        rw [runOps_cons_none] at h9
        obtain ⟨f2, a2, h9⟩ := h9
        rw [runOps_cons_none] at h9
        obtain ⟨f3, a3, h9⟩ := h9
        rw [runOps_cons_none] at h9
        obtain ⟨f4, a4, h9⟩ := h9
        rw [runOps_cons_none] at h9
        obtain ⟨f5, a5, h9⟩ := h9
        rw [runOps_cons_none] at h9
        obtain ⟨f6, a6, h9⟩ := h9
        rw [runOps_cons_none] at h9
        obtain ⟨f7, a7, h9⟩ := h9
        rw [runOps_cons_none] at h9
        obtain ⟨f8, a8, h9⟩ := h9
        rw [runOps_cons_none] at h9
        obtain ⟨f9, a9, h9⟩ := h9
        have hfsm : f9 = fsm := congrArg Prod.fst h9
        simp only [applyOp] at a3 a4 a5 a6 a7 a8 a9
        obtain ⟨hf3, -⟩ := FS.mkdirP_ok _ _ _ _ a3
        obtain ⟨hf4, -⟩ := FS.mkdir1_ok _ _ _ _ a4
        obtain ⟨hf5, -⟩ := FS.mkdir1_ok _ _ _ _ a5
        obtain ⟨hf6, -⟩ := FS.mkdir1_ok _ _ _ _ a6
        obtain ⟨hf7, -⟩ := FS.mkdir1_ok _ _ _ _ a7
        obtain ⟨hf8, -⟩ := FS.symlinkTo_ok _ _ _ _ a8
        obtain ⟨hf9, -⟩ := FS.symlinkTo_ok _ _ _ _ a9
        refine ⟨?_, ?_, ?_⟩
        · rw [hpres _ (Path.join_ne_join_last src src ".gitignore" "work" (by decide))
              (Path.join_ne_join_last (Path.toAbsolute cwd src) src "makebio.toml" "work"
                (by decide)),
            ← hfsm, hf9, hf8]
          rw [FS.lookup_set, if_neg (Path.join_ne_join_last src src "work" "data" (by decide)),
            FS.lookup_set, if_pos rfl]
        · rw [hpres _ (Path.join_ne_join_last src src ".gitignore" "data" (by decide))
              (Path.join_ne_join_last (Path.toAbsolute cwd src) src "makebio.toml" "data"
                (by decide)),
            ← hfsm, hf9]
          rw [FS.lookup_set, if_pos rfl]
        · rw [hpres _ ((Path.ne_join_of_le src src ".gitignore" le_rfl).symm)
              ((Path.ne_join_of_le src (Path.toAbsolute cwd src) "makebio.toml"
                (Path.toAbsolute_len cwd src)).symm),
            ← hfsm, hf9, hf8, hf7, hf6, hf5, hf4, hf3]
          rw [FS.lookup_set, if_neg (Path.ne_join_of_le src src "data" le_rfl),
            FS.lookup_set, if_neg (Path.ne_join_of_le src src "work" le_rfl),
            FS.lookup_set, if_neg (Path.ne_join_of_le src src "src" le_rfl),
            FS.lookup_set, if_neg (Path.ne_join_of_le src src "bin" le_rfl),
            FS.lookup_set, if_neg (Path.ne_join_of_le src src "notebooks" le_rfl),
            FS.lookup_set, if_neg (Path.ne_join_of_le src src "control" le_rfl),
            FS.lookup_set, if_pos rfl]
      case _ fs'' e heq => simp at h

/-! ## Demonstration states used by witnesses and counterexamples -/

def demoRoot : Path := ⟨true, ["r"]⟩

def demoCwd : Path := ⟨true, ["home", "op"]⟩
def demoSrcArg : Path := ⟨false, ["proj"]⟩
def demoLinkArg : Path := ⟨false, ["scratch"]⟩

/-- `init` run from an empty filesystem with a relative `linkto` argument. -/
def demoInit : FS × Outcome := init emptyFS demoCwd demoCwd demoSrcArg demoLinkArg false false

/-- `init` run from an empty filesystem with absolute arguments. -/
def demoInitAbs : FS × Outcome :=
  init emptyFS demoCwd demoCwd ⟨true, ["h", "proj"]⟩ ⟨true, ["scr"]⟩ true false

/-- A small initialized project skeleton rooted at `demoRoot`. -/
def demoFS0 : FS :=
  ((((emptyFS.set ⟨true, []⟩ (.dir 511)).set demoRoot (.dir 511)).set
      (demoRoot.join "control") (.dir 511)).set
      (demoRoot.join "work") (.dir 511)).set (demoRoot.join "data") (.dir 511)

def demoFreezeFS : FS :=
  (emptyFS.set demoRoot (.dir 511)).set (demoRoot.join "f.txt") (.file 420)

/-! ## Claim C2 -/

/-- C2 counterexample: running `init` with the relative `linkto` argument
`scratch` succeeds and creates a symlink whose stored target
`scratch/proj/work` is a relative path, so not every input form of `linkto`
yields absolute symlink targets. -/
theorem init_relative_linkto_gives_relative_target :
    demoInit.2 = .ok ∧
    demoInit.1.lookup (demoSrcArg.join "work") =
      some (.symlink ⟨false, ["scratch", "proj", "work"]⟩) ∧
    (⟨false, ["scratch", "proj", "work"]⟩ : Path).absolute = false := by decide

/-- C2 (amended): every symlink created during initialization stores the
target `linkto/src.name/work` (resp. `data`) exactly as the tilde-expanded
`linkto` argument was given; the target is absolute precisely when that
expanded `linkto` argument is absolute (a relative `linkto` yields relative
targets). -/
theorem init_symlink_targets_follow_linkto (fs fs' : FS)
    (cwd home srcArg linktoArg : Path) (git : Bool)
    (h : init fs cwd home srcArg linktoArg git false = (fs', .ok)) :
    fs'.lookup ((Path.expanduser home srcArg).join "work") =
      some (.symlink (((Path.expanduser home linktoArg).join
        (Path.expanduser home srcArg).name).join "work")) ∧
    fs'.lookup ((Path.expanduser home srcArg).join "data") =
      some (.symlink (((Path.expanduser home linktoArg).join
        (Path.expanduser home srcArg).name).join "data")) ∧
    (((Path.expanduser home linktoArg).join
        (Path.expanduser home srcArg).name).join "work").absolute =
      (Path.expanduser home linktoArg).absolute ∧
    (((Path.expanduser home linktoArg).join
        (Path.expanduser home srcArg).name).join "data").absolute =
      (Path.expanduser home linktoArg).absolute := by
  obtain ⟨h1, h2, -⟩ := init_ok_shape fs fs' cwd home srcArg linktoArg git h
  exact ⟨h1, h2, rfl, rfl⟩

theorem init_symlink_targets_witness :
    demoInitAbs.1.lookup (⟨true, ["h", "proj", "work"]⟩ : Path) =
      some (.symlink ⟨true, ["scr", "proj", "work"]⟩) ∧
    demoInitAbs.1.lookup (⟨true, ["h", "proj", "data"]⟩ : Path) =
      some (.symlink ⟨true, ["scr", "proj", "data"]⟩) := by
  have h := init_symlink_targets_follow_linkto emptyFS demoInitAbs.1 demoCwd demoCwd
    ⟨true, ["h", "proj"]⟩ ⟨true, ["scr"]⟩ true rfl
  exact ⟨h.1, h.2.1⟩

/-! ## Claim C3 -/

/-- C3 counterexample: a successful `init` records mode `0o744` on `src`,
which has read bits set for group and others — not owner-only permissions. -/
theorem init_src_mode_not_owner_only :
    demoInit.2 = .ok ∧
    demoInit.1.lookup demoSrcArg = some (.dir 0o744) ∧
    0o744 &&& 0o077 ≠ 0 := by decide

/-- C3 (amended): during initialization the project root `src` is created
with mode `0o744`: read/write/execute for the owner, read-only (neither
writable nor executable) for group and others. -/
theorem init_src_mode_0744 (fs fs' : FS) (cwd home srcArg linktoArg : Path)
    (git : Bool) (h : init fs cwd home srcArg linktoArg git false = (fs', .ok)) :
    fs'.lookup (Path.expanduser home srcArg) = some (.dir 0o744) ∧
    0o744 &&& 0o700 = 0o700 ∧ 0o744 &&& 0o077 = 0o044 := by
  obtain ⟨-, -, h3⟩ := init_ok_shape fs fs' cwd home srcArg linktoArg git h
  exact ⟨h3, by decide, by decide⟩

theorem init_src_mode_witness :
    demoInitAbs.1.lookup (⟨true, ["h", "proj"]⟩ : Path) = some (.dir 0o744) :=
  (init_src_mode_0744 emptyFS demoInitAbs.1 demoCwd demoCwd
    ⟨true, ["h", "proj"]⟩ ⟨true, ["scr"]⟩ true rfl).1

/-! ## Claim C4 -/

lemma pathExists_false_iff (fs : FS) (p : Path) :
    fs.pathExists p = false ↔ fs p = none := by
  unfold FS.pathExists
  cases fs p <;> simp

lemma under32_none (ab : Bool) (rc : List String) (a b c d e : String) :
    Path.under ⟨ab, rc ++ [a, b, c]⟩ ⟨ab, rc ++ [d, e]⟩ = none :=
  Path.under_of_longer _ _ (by simp)

/-- A state holding only `control/a` (no `work/a` half). -/
def c4fs : FS := emptyFS.set (controlEntry demoRoot "a") (.dir 511)

/-- C4 counterexample: in a state where `control/a` exists and `control/b`
does not — the claim's only stated precondition — but the `work` half is
missing, live `rename_analysis` crashes on the uncaught `FileNotFoundError`
after the control rename, leaving `work/b` absent (and `control/a` already
gone), contrary to the claimed final state. -/
theorem rename_missing_work_half_partial :
    c4fs.pathExists (controlEntry demoRoot "a") = true ∧
    c4fs.pathExists (controlEntry demoRoot "b") = false ∧
    (rename_analysis c4fs demoRoot "a" "b" false).1.pathExists (workEntry demoRoot "b") = false ∧
    (rename_analysis c4fs demoRoot "a" "b" false).1.pathExists (controlEntry demoRoot "a") = false ∧
    (rename_analysis c4fs demoRoot "a" "b" false).2 =
      .crash (.notFound (workEntry demoRoot "a")) := by decide

/-- C4 (amended): for every state in which the entry pair is well formed —
`control/old` and `work/old` exist, `control/new` and `work/new` are absent,
`control/old` holds no entry named `tmp`, and `control/old/work` is not a
real directory (it is the symlink `add_analysis` creates, a file, or absent)
— live `rename_analysis old new` succeeds with `control/new` and `work/new`
existing, `control/old` and `work/old` absent, and the symlink
`control/new/work` pointing at `work/new`. -/
theorem rename_live_relocates_pair (fs : FS) (root : Path) (old new : String)
    (hco : fs.pathExists (controlEntry root old) = true)
    (hcn : fs.pathExists (controlEntry root new) = false)
    (hwo : fs.pathExists (workEntry root old) = true)
    (hwn : fs.pathExists (workEntry root new) = false)
    (htmp : fs.pathExists ((controlEntry root old).join "tmp") = false)
    (hnd : fs.isDir ((controlEntry root old).join "work") = false) :
    (rename_analysis fs root old new false).2 = .ok ∧
    (rename_analysis fs root old new false).1.pathExists (controlEntry root new) = true ∧
    (rename_analysis fs root old new false).1.pathExists (workEntry root new) = true ∧
    (rename_analysis fs root old new false).1.pathExists (controlEntry root old) = false ∧
    (rename_analysis fs root old new false).1.pathExists (workEntry root old) = false ∧
    (rename_analysis fs root old new false).1.lookup ((controlEntry root new).join "work") =
      some (.symlink (workEntry root new)) := by
  have hone : old ≠ new := by
    intro he
    rw [he, hcn] at hco
    exact absurd hco (by decide)
  rw [controlEntry_eq] at hco hcn
  rw [workEntry_eq] at hwo hwn
  rw [controlEntry_join_eq] at htmp hnd
  -- step 1: rename the control pair
  have v1wo : moved fs ⟨root.absolute, root.components ++ ["control", old]⟩
      ⟨root.absolute, root.components ++ ["control", new]⟩
      ⟨root.absolute, root.components ++ ["work", old]⟩ =
      fs ⟨root.absolute, root.components ++ ["work", old]⟩ := by
    rw [moved_eval,
      Path.under_pp_ne root.absolute root.components "control" new "work" old
        (Or.inl (by decide)),
      Path.under_pp_ne root.absolute root.components "control" old "work" old
        (Or.inl (by decide))]
    simp
  have v1wn : moved fs ⟨root.absolute, root.components ++ ["control", old]⟩
      ⟨root.absolute, root.components ++ ["control", new]⟩
      ⟨root.absolute, root.components ++ ["work", new]⟩ =
      fs ⟨root.absolute, root.components ++ ["work", new]⟩ := by
    rw [moved_eval,
      Path.under_pp_ne root.absolute root.components "control" new "work" new
        (Or.inl (by decide)),
      Path.under_pp_ne root.absolute root.components "control" old "work" new
        (Or.inl (by decide))]
    simp
  have v1cn : moved fs ⟨root.absolute, root.components ++ ["control", old]⟩
      ⟨root.absolute, root.components ++ ["control", new]⟩
      ⟨root.absolute, root.components ++ ["control", new]⟩ =
      fs ⟨root.absolute, root.components ++ ["control", old]⟩ := by
    rw [moved_eval, Path.under_self]
    simp
  have v1co : moved fs ⟨root.absolute, root.components ++ ["control", old]⟩
      ⟨root.absolute, root.components ++ ["control", new]⟩
      ⟨root.absolute, root.components ++ ["control", old]⟩ = none := by
    rw [moved_eval,
      Path.under_pp_ne root.absolute root.components "control" new "control" old
        (Or.inr (Ne.symm hone)),
      Path.under_self]
    simp
  have v1tn : moved fs ⟨root.absolute, root.components ++ ["control", old]⟩
      ⟨root.absolute, root.components ++ ["control", new]⟩
      ⟨root.absolute, root.components ++ ["control", new, "tmp"]⟩ =
      fs ⟨root.absolute, root.components ++ ["control", old, "tmp"]⟩ := by
    rw [moved_eval, Path.under_pp_triple root.absolute root.components "control" new "tmp"]
    simp
  have v1kn : moved fs ⟨root.absolute, root.components ++ ["control", old]⟩
      ⟨root.absolute, root.components ++ ["control", new]⟩
      ⟨root.absolute, root.components ++ ["control", new, "work"]⟩ =
      fs ⟨root.absolute, root.components ++ ["control", old, "work"]⟩ := by
    rw [moved_eval, Path.under_pp_triple root.absolute root.components "control" new "work"]
    simp
  have e1 : fs.renameFS ⟨root.absolute, root.components ++ ["control", old]⟩
      ⟨root.absolute, root.components ++ ["control", new]⟩ =
      .ok (moved fs ⟨root.absolute, root.components ++ ["control", old]⟩
        ⟨root.absolute, root.components ++ ["control", new]⟩) :=
    FS.renameFS_ok_eq fs _ _ hco hcn
  -- step 2: rename the work pair
  have hwo1 : (moved fs ⟨root.absolute, root.components ++ ["control", old]⟩
      ⟨root.absolute, root.components ++ ["control", new]⟩).pathExists
      ⟨root.absolute, root.components ++ ["work", old]⟩ = true := by
    unfold FS.pathExists
    rw [v1wo]
    exact hwo
  have hwn1 : (moved fs ⟨root.absolute, root.components ++ ["control", old]⟩
      ⟨root.absolute, root.components ++ ["control", new]⟩).pathExists
      ⟨root.absolute, root.components ++ ["work", new]⟩ = false := by
    unfold FS.pathExists
    rw [v1wn]
    exact hwn
  have e2 : (moved fs ⟨root.absolute, root.components ++ ["control", old]⟩
      ⟨root.absolute, root.components ++ ["control", new]⟩).renameFS
      ⟨root.absolute, root.components ++ ["work", old]⟩
      ⟨root.absolute, root.components ++ ["work", new]⟩ =
      .ok (moved (moved fs ⟨root.absolute, root.components ++ ["control", old]⟩
        ⟨root.absolute, root.components ++ ["control", new]⟩)
        ⟨root.absolute, root.components ++ ["work", old]⟩
        ⟨root.absolute, root.components ++ ["work", new]⟩) :=
    FS.renameFS_ok_eq _ _ _ hwo1 hwn1
  -- evaluations of the state after both renames
  have v2cn : moved (moved fs ⟨root.absolute, root.components ++ ["control", old]⟩
      ⟨root.absolute, root.components ++ ["control", new]⟩)
      ⟨root.absolute, root.components ++ ["work", old]⟩
      ⟨root.absolute, root.components ++ ["work", new]⟩
      ⟨root.absolute, root.components ++ ["control", new]⟩ =
      fs ⟨root.absolute, root.components ++ ["control", old]⟩ := by
    rw [moved_eval,
      Path.under_pp_ne root.absolute root.components "work" new "control" new
        (Or.inl (by decide)),
      Path.under_pp_ne root.absolute root.components "work" old "control" new
        (Or.inl (by decide))]
    simp [v1cn]
  have v2co : moved (moved fs ⟨root.absolute, root.components ++ ["control", old]⟩
      ⟨root.absolute, root.components ++ ["control", new]⟩)
      ⟨root.absolute, root.components ++ ["work", old]⟩
      ⟨root.absolute, root.components ++ ["work", new]⟩
      ⟨root.absolute, root.components ++ ["control", old]⟩ = none := by
    rw [moved_eval,
      Path.under_pp_ne root.absolute root.components "work" new "control" old
        (Or.inl (by decide)),
      Path.under_pp_ne root.absolute root.components "work" old "control" old
        (Or.inl (by decide))]
    simp [v1co]
  have v2wn : moved (moved fs ⟨root.absolute, root.components ++ ["control", old]⟩
      ⟨root.absolute, root.components ++ ["control", new]⟩)
      ⟨root.absolute, root.components ++ ["work", old]⟩
      ⟨root.absolute, root.components ++ ["work", new]⟩
      ⟨root.absolute, root.components ++ ["work", new]⟩ =
      fs ⟨root.absolute, root.components ++ ["work", old]⟩ := by
    rw [moved_eval, Path.under_self]
    simp [v1wo]
  have v2wo : moved (moved fs ⟨root.absolute, root.components ++ ["control", old]⟩
      ⟨root.absolute, root.components ++ ["control", new]⟩)
      ⟨root.absolute, root.components ++ ["work", old]⟩
      ⟨root.absolute, root.components ++ ["work", new]⟩
      ⟨root.absolute, root.components ++ ["work", old]⟩ = none := by
    rw [moved_eval,
      Path.under_pp_ne root.absolute root.components "work" new "work" old
        (Or.inr (Ne.symm hone)),
      Path.under_self]
    simp
  have v2tn : moved (moved fs ⟨root.absolute, root.components ++ ["control", old]⟩
      ⟨root.absolute, root.components ++ ["control", new]⟩)
      ⟨root.absolute, root.components ++ ["work", old]⟩
      ⟨root.absolute, root.components ++ ["work", new]⟩
      ⟨root.absolute, root.components ++ ["control", new, "tmp"]⟩ = none := by
    rw [moved_eval,
      Path.under_pp_triple_ne root.absolute root.components "work" new "control" new "tmp"
        (Or.inl (by decide)),
      Path.under_pp_triple_ne root.absolute root.components "work" old "control" new "tmp"
        (Or.inl (by decide))]
    simp [v1tn, (pathExists_false_iff fs _).mp htmp]
  have v2kn : moved (moved fs ⟨root.absolute, root.components ++ ["control", old]⟩
      ⟨root.absolute, root.components ++ ["control", new]⟩)
      ⟨root.absolute, root.components ++ ["work", old]⟩
      ⟨root.absolute, root.components ++ ["work", new]⟩
      ⟨root.absolute, root.components ++ ["control", new, "work"]⟩ =
      fs ⟨root.absolute, root.components ++ ["control", old, "work"]⟩ := by
    rw [moved_eval,
      Path.under_pp_triple_ne root.absolute root.components "work" new "control" new "work"
        (Or.inl (by decide)),
      Path.under_pp_triple_ne root.absolute root.components "work" old "control" new "work"
        (Or.inl (by decide))]
    simp [v1kn]
  -- step 3: the tmp symlink inside the renamed control directory
  have htn2 : (moved (moved fs ⟨root.absolute, root.components ++ ["control", old]⟩
      ⟨root.absolute, root.components ++ ["control", new]⟩)
      ⟨root.absolute, root.components ++ ["work", old]⟩
      ⟨root.absolute, root.components ++ ["work", new]⟩).pathExists
      ⟨root.absolute, root.components ++ ["control", new, "tmp"]⟩ = false := by
    unfold FS.pathExists
    rw [v2tn]
    rfl
  have hTNpar : (⟨root.absolute, root.components ++ ["control", new, "tmp"]⟩ : Path).parent =
      ⟨root.absolute, root.components ++ ["control", new]⟩ := by
    unfold Path.parent
    rw [show root.components ++ ["control", new, "tmp"] =
      (root.components ++ ["control", new]) ++ ["tmp"] by simp, List.dropLast_concat]
  have hcn2 : (moved (moved fs ⟨root.absolute, root.components ++ ["control", old]⟩
      ⟨root.absolute, root.components ++ ["control", new]⟩)
      ⟨root.absolute, root.components ++ ["work", old]⟩
      ⟨root.absolute, root.components ++ ["work", new]⟩).pathExists
      ⟨root.absolute, root.components ++ ["control", new]⟩ = true := by
    unfold FS.pathExists
    rw [v2cn]
    exact hco
  have e3 : (moved (moved fs ⟨root.absolute, root.components ++ ["control", old]⟩
      ⟨root.absolute, root.components ++ ["control", new]⟩)
      ⟨root.absolute, root.components ++ ["work", old]⟩
      ⟨root.absolute, root.components ++ ["work", new]⟩).symlinkTo
      ⟨root.absolute, root.components ++ ["control", new, "tmp"]⟩
      ⟨root.absolute, root.components ++ ["work", new]⟩ =
      .ok ((moved (moved fs ⟨root.absolute, root.components ++ ["control", old]⟩
        ⟨root.absolute, root.components ++ ["control", new]⟩)
        ⟨root.absolute, root.components ++ ["work", old]⟩
        ⟨root.absolute, root.components ++ ["work", new]⟩).set
        ⟨root.absolute, root.components ++ ["control", new, "tmp"]⟩
        (.symlink ⟨root.absolute, root.components ++ ["work", new]⟩)) := by
    unfold FS.symlinkTo
    rw [htn2, hTNpar, hcn2]
    simp
  -- inequalities used to peel the `set` of the tmp symlink
  have nKN : (⟨root.absolute, root.components ++ ["control", new, "work"]⟩ : Path) ≠
      ⟨root.absolute, root.components ++ ["control", new, "tmp"]⟩ :=
    Path.mk_ne_of_getLast _ _ _ _ (by rw [last3, last3]; decide)
  have nCN : (⟨root.absolute, root.components ++ ["control", new]⟩ : Path) ≠
      ⟨root.absolute, root.components ++ ["control", new, "tmp"]⟩ :=
    Path.mk_ne_of_length _ _ _ _ (by simp)
  have nWN : (⟨root.absolute, root.components ++ ["work", new]⟩ : Path) ≠
      ⟨root.absolute, root.components ++ ["control", new, "tmp"]⟩ :=
    Path.mk_ne_of_length _ _ _ _ (by simp)
  have nCO : (⟨root.absolute, root.components ++ ["control", old]⟩ : Path) ≠
      ⟨root.absolute, root.components ++ ["control", new, "tmp"]⟩ :=
    Path.mk_ne_of_length _ _ _ _ (by simp)
  have nWO : (⟨root.absolute, root.components ++ ["work", old]⟩ : Path) ≠
      ⟨root.absolute, root.components ++ ["control", new, "tmp"]⟩ :=
    Path.mk_ne_of_length _ _ _ _ (by simp)
  -- step 4: atomically replace control/new/work with the tmp symlink
  have htn3 : ((moved (moved fs ⟨root.absolute, root.components ++ ["control", old]⟩
      ⟨root.absolute, root.components ++ ["control", new]⟩)
      ⟨root.absolute, root.components ++ ["work", old]⟩
      ⟨root.absolute, root.components ++ ["work", new]⟩).set
      ⟨root.absolute, root.components ++ ["control", new, "tmp"]⟩
      (.symlink ⟨root.absolute, root.components ++ ["work", new]⟩)).pathExists
      ⟨root.absolute, root.components ++ ["control", new, "tmp"]⟩ = true :=
    FS.pathExists_set_self _ _ _
  have hkd3 : ((moved (moved fs ⟨root.absolute, root.components ++ ["control", old]⟩
      ⟨root.absolute, root.components ++ ["control", new]⟩)
      ⟨root.absolute, root.components ++ ["work", old]⟩
      ⟨root.absolute, root.components ++ ["work", new]⟩).set
      ⟨root.absolute, root.components ++ ["control", new, "tmp"]⟩
      (.symlink ⟨root.absolute, root.components ++ ["work", new]⟩)).isDir
      ⟨root.absolute, root.components ++ ["control", new, "work"]⟩ = false := by
    rw [FS.isDir_congr _ fs _ ⟨root.absolute, root.components ++ ["control", old, "work"]⟩
      (by simp [FS.set, nKN, v2kn])]
    exact hnd
  have e4 : ((moved (moved fs ⟨root.absolute, root.components ++ ["control", old]⟩
      ⟨root.absolute, root.components ++ ["control", new]⟩)
      ⟨root.absolute, root.components ++ ["work", old]⟩
      ⟨root.absolute, root.components ++ ["work", new]⟩).set
      ⟨root.absolute, root.components ++ ["control", new, "tmp"]⟩
      (.symlink ⟨root.absolute, root.components ++ ["work", new]⟩)).replaceFS
      ⟨root.absolute, root.components ++ ["control", new, "tmp"]⟩
      ⟨root.absolute, root.components ++ ["control", new, "work"]⟩ =
      .ok (moved ((moved (moved fs ⟨root.absolute, root.components ++ ["control", old]⟩
        ⟨root.absolute, root.components ++ ["control", new]⟩)
        ⟨root.absolute, root.components ++ ["work", old]⟩
        ⟨root.absolute, root.components ++ ["work", new]⟩).set
        ⟨root.absolute, root.components ++ ["control", new, "tmp"]⟩
        (.symlink ⟨root.absolute, root.components ++ ["work", new]⟩))
        ⟨root.absolute, root.components ++ ["control", new, "tmp"]⟩
        ⟨root.absolute, root.components ++ ["control", new, "work"]⟩) :=
    FS.replaceFS_ok_eq _ _ _ htn3 hkd3
  -- final state evaluations
  have v4cn : moved ((moved (moved fs ⟨root.absolute, root.components ++ ["control", old]⟩
      ⟨root.absolute, root.components ++ ["control", new]⟩)
      ⟨root.absolute, root.components ++ ["work", old]⟩
      ⟨root.absolute, root.components ++ ["work", new]⟩).set
      ⟨root.absolute, root.components ++ ["control", new, "tmp"]⟩
      (.symlink ⟨root.absolute, root.components ++ ["work", new]⟩))
      ⟨root.absolute, root.components ++ ["control", new, "tmp"]⟩
      ⟨root.absolute, root.components ++ ["control", new, "work"]⟩
      ⟨root.absolute, root.components ++ ["control", new]⟩ =
      fs ⟨root.absolute, root.components ++ ["control", old]⟩ := by
    rw [moved_eval, under32_none, under32_none]
    simp [FS.set, nCN, v2cn]
  have v4wn : moved ((moved (moved fs ⟨root.absolute, root.components ++ ["control", old]⟩
      ⟨root.absolute, root.components ++ ["control", new]⟩)
      ⟨root.absolute, root.components ++ ["work", old]⟩
      ⟨root.absolute, root.components ++ ["work", new]⟩).set
      ⟨root.absolute, root.components ++ ["control", new, "tmp"]⟩
      (.symlink ⟨root.absolute, root.components ++ ["work", new]⟩))
      ⟨root.absolute, root.components ++ ["control", new, "tmp"]⟩
      ⟨root.absolute, root.components ++ ["control", new, "work"]⟩
      ⟨root.absolute, root.components ++ ["work", new]⟩ =
      fs ⟨root.absolute, root.components ++ ["work", old]⟩ := by
    rw [moved_eval, under32_none, under32_none]
    simp [FS.set, nWN, v2wn]
  have v4co : moved ((moved (moved fs ⟨root.absolute, root.components ++ ["control", old]⟩
      ⟨root.absolute, root.components ++ ["control", new]⟩)
      ⟨root.absolute, root.components ++ ["work", old]⟩
      ⟨root.absolute, root.components ++ ["work", new]⟩).set
      ⟨root.absolute, root.components ++ ["control", new, "tmp"]⟩
      (.symlink ⟨root.absolute, root.components ++ ["work", new]⟩))
      ⟨root.absolute, root.components ++ ["control", new, "tmp"]⟩
      ⟨root.absolute, root.components ++ ["control", new, "work"]⟩
      ⟨root.absolute, root.components ++ ["control", old]⟩ = none := by
    rw [moved_eval, under32_none, under32_none]
    simp [FS.set, nCO, v2co]
  have v4wo : moved ((moved (moved fs ⟨root.absolute, root.components ++ ["control", old]⟩
      ⟨root.absolute, root.components ++ ["control", new]⟩)
      ⟨root.absolute, root.components ++ ["work", old]⟩
      ⟨root.absolute, root.components ++ ["work", new]⟩).set
      ⟨root.absolute, root.components ++ ["control", new, "tmp"]⟩
      (.symlink ⟨root.absolute, root.components ++ ["work", new]⟩))
      ⟨root.absolute, root.components ++ ["control", new, "tmp"]⟩
      ⟨root.absolute, root.components ++ ["control", new, "work"]⟩
      ⟨root.absolute, root.components ++ ["work", old]⟩ = none := by
    rw [moved_eval, under32_none, under32_none]
    simp [FS.set, nWO, v2wo]
  have v4kn : moved ((moved (moved fs ⟨root.absolute, root.components ++ ["control", old]⟩
      ⟨root.absolute, root.components ++ ["control", new]⟩)
      ⟨root.absolute, root.components ++ ["work", old]⟩
      ⟨root.absolute, root.components ++ ["work", new]⟩).set
      ⟨root.absolute, root.components ++ ["control", new, "tmp"]⟩
      (.symlink ⟨root.absolute, root.components ++ ["work", new]⟩))
      ⟨root.absolute, root.components ++ ["control", new, "tmp"]⟩
      ⟨root.absolute, root.components ++ ["control", new, "work"]⟩
      ⟨root.absolute, root.components ++ ["control", new, "work"]⟩ =
      some (.symlink ⟨root.absolute, root.components ++ ["work", new]⟩) := by
    rw [moved_eval, Path.under_self]
    simp [FS.set]
  -- assemble
  simp only [rename_analysis, controlEntry_eq, workEntry_eq, Path.join, List.append_assoc,
    List.cons_append, List.singleton_append, List.nil_append, hco, hcn, Bool.not_true,
    Bool.false_eq_true, if_false, e1, e2, e3, e4]
  refine ⟨trivial, ?_, ?_, ?_, ?_, ?_⟩
  · unfold FS.pathExists
    rw [v4cn]
    exact hco
  · unfold FS.pathExists
    rw [v4wn]
    exact hwo
  · unfold FS.pathExists
    rw [v4co]
    rfl
  · unfold FS.pathExists
    rw [v4wo]
    rfl
  · unfold FS.lookup
    rw [v4kn]


/-- A well-formed single-entry project used to witness the amended C4. -/
def c4goodFS : FS :=
  ((emptyFS.set (controlEntry demoRoot "a") (.dir 511)).set
    (workEntry demoRoot "a") (.dir 511)).set
    ((controlEntry demoRoot "a").join "work") (.symlink (workEntry demoRoot "a"))

theorem rename_live_witness :
    (rename_analysis c4goodFS demoRoot "a" "b" false).2 = .ok ∧
    (rename_analysis c4goodFS demoRoot "a" "b" false).1.lookup
      ((controlEntry demoRoot "b").join "work") =
      some (.symlink (workEntry demoRoot "b")) := by
  have h := rename_live_relocates_pair c4goodFS demoRoot "a" "b" (by decide) (by decide)
    (by decide) (by decide) (by decide) (by decide)
  exact ⟨h.1, h.2.2.2.2.2⟩

/-! ## Claim C5 -/

/-- C5: if `src` already exists, or `linkto/src.name` already exists, `init`
fails with an `AlreadyExists` error naming the offending path and performs
no filesystem mutation whatsoever (the state is returned untouched). -/
theorem init_rejects_existing_and_mutates_nothing
    (fs : FS) (cwd home srcArg linktoArg : Path) (git cfgFound : Bool) :
    (fs.pathExists (Path.expanduser home srcArg) = true →
      init fs cwd home srcArg linktoArg git cfgFound =
        (fs, .fatal (.alreadyExists (Path.expanduser home srcArg)))) ∧
    (fs.pathExists (Path.expanduser home srcArg) = false →
      fs.pathExists ((Path.expanduser home linktoArg).join
          (Path.expanduser home srcArg).name) = true →
      init fs cwd home srcArg linktoArg git cfgFound =
        (fs, .fatal (.alreadyExists ((Path.expanduser home linktoArg).join
          (Path.expanduser home srcArg).name)))) := by
  constructor
  · intro h
    simp only [init, h, if_true]
  · intro h1 h2
    simp only [init, h1, h2]
    simp

/-- A state whose only entry is the scratch-side collision path `/r/s`. -/
def demoFSB : FS := emptyFS.set ⟨true, ["r", "s"]⟩ (.dir 511)

theorem init_rejects_existing_witness :
    init demoFS0 demoRoot demoRoot demoRoot demoRoot true false =
      (demoFS0, .fatal (.alreadyExists demoRoot)) ∧
    init demoFSB demoRoot demoRoot ⟨true, ["s"]⟩ demoRoot true false =
      (demoFSB, .fatal (.alreadyExists ⟨true, ["r", "s"]⟩)) :=
  ⟨(init_rejects_existing_and_mutates_nothing demoFS0 demoRoot demoRoot demoRoot
      demoRoot true false).1 (by decide),
   (init_rejects_existing_and_mutates_nothing demoFSB demoRoot demoRoot ⟨true, ["s"]⟩
      demoRoot true false).2 (by decide) (by decide)⟩

/-! ## Claim C1 -/

/-- C1: for every entry name and category, `add_analysis` / `add_data` create
exactly two directories, `control/<entryName>` and `work/<entryName>`
(respectively `data/<entryName>`), bearing the same entry name
(`add_analysis` additionally creates one symlink, which is not a directory);
invoking the command again with the same name on the same day fails with
`AlreadyExists` naming the colliding path and creates zero additional
directories (the filesystem is returned unchanged). -/
theorem addEntry_pair_and_rerun_rejected
    (fs : FS) (root : Path) (name today dn : String) (withDate : Bool)
    (hdn : dn = dirNameOf withDate today name)
    (hc : fs.pathExists (controlEntry root dn) = false)
    (hw : fs.pathExists (workEntry root dn) = false)
    (hd : fs.pathExists (dataEntry root dn) = false)
    (hcw : fs.pathExists ((controlEntry root dn).join "work") = false)
    (hac : ∀ a ∈ (controlEntry root dn).ancestors, fs.pathExists a = true)
    (haw : ∀ a ∈ (workEntry root dn).ancestors, fs.pathExists a = true)
    (had : ∀ a ∈ (dataEntry root dn).ancestors, fs.pathExists a = true) :
    ((add_analysis fs root name withDate today).2 = .ok ∧
     (add_analysis fs root name withDate today).1.lookup (controlEntry root dn) =
       some (.dir 511) ∧
     (add_analysis fs root name withDate today).1.lookup (workEntry root dn) =
       some (.dir 511) ∧
     (add_analysis fs root name withDate today).1.lookup
       ((controlEntry root dn).join "work") = some (.symlink (workEntry root dn)) ∧
     (∀ q, q ≠ controlEntry root dn → q ≠ workEntry root dn →
        q ≠ (controlEntry root dn).join "work" →
        (add_analysis fs root name withDate today).1.lookup q = fs.lookup q) ∧
     add_analysis (add_analysis fs root name withDate today).1 root name withDate today =
       ((add_analysis fs root name withDate today).1,
        .fatal (.alreadyExists (controlEntry root dn)))) ∧
    ((add_data fs root name withDate today).2 = .ok ∧
     (add_data fs root name withDate today).1.lookup (controlEntry root dn) =
       some (.dir 511) ∧
     (add_data fs root name withDate today).1.lookup (dataEntry root dn) =
       some (.dir 511) ∧
     (∀ q, q ≠ controlEntry root dn → q ≠ dataEntry root dn →
        (add_data fs root name withDate today).1.lookup q = fs.lookup q) ∧
     add_data (add_data fs root name withDate today).1 root name withDate today =
       ((add_data fs root name withDate today).1,
        .fatal (.alreadyExists (controlEntry root dn)))) := by
  have lc : (controlEntry root dn).components.length = root.components.length + 2 := by
    simp [controlEntry, Path.join]
  have lw : (workEntry root dn).components.length = root.components.length + 2 := by
    simp [workEntry, Path.join]
  have n1 : workEntry root dn ≠ controlEntry root dn :=
    Path.join_ne_of_mid root "work" "control" dn dn (by decide)
  have n2 : dataEntry root dn ≠ controlEntry root dn :=
    Path.join_ne_of_mid root "data" "control" dn dn (by decide)
  have n3 : (controlEntry root dn).join "work" ≠ controlEntry root dn :=
    (Path.ne_join_of_le (controlEntry root dn) (controlEntry root dn) "work" le_rfl).symm
  have n4 : (controlEntry root dn).join "work" ≠ workEntry root dn :=
    (Path.ne_join_of_le (workEntry root dn) (controlEntry root dn) "work"
      (le_of_eq (lw.trans lc.symm))).symm
  have e1 : fs.mkdirP (controlEntry root dn) 511 =
      .ok (fs.set (controlEntry root dn) (.dir 511)) := by
    unfold FS.mkdirP
    rw [hc, FS.mkParents_id fs _ hac]
    simp
  have e2 : (fs.set (controlEntry root dn) (.dir 511)).mkdirP (workEntry root dn) 511 =
      .ok ((fs.set (controlEntry root dn) (.dir 511)).set (workEntry root dn)
        (.dir 511)) := by
    unfold FS.mkdirP
    rw [FS.pathExists_set_ne fs (controlEntry root dn) (workEntry root dn) _ n1, hw,
      FS.mkParents_id _ _
        (fun a ha => FS.pathExists_set_mono fs (controlEntry root dn) a _ (haw a ha))]
    simp
  have e2d : (fs.set (controlEntry root dn) (.dir 511)).mkdirP (dataEntry root dn) 511 =
      .ok ((fs.set (controlEntry root dn) (.dir 511)).set (dataEntry root dn)
        (.dir 511)) := by
    unfold FS.mkdirP
    rw [FS.pathExists_set_ne fs (controlEntry root dn) (dataEntry root dn) _ n2, hd,
      FS.mkParents_id _ _
        (fun a ha => FS.pathExists_set_mono fs (controlEntry root dn) a _ (had a ha))]
    simp
  have e3 : ((fs.set (controlEntry root dn) (.dir 511)).set (workEntry root dn)
        (.dir 511)).symlinkTo ((controlEntry root dn).join "work") (workEntry root dn) =
      .ok (((fs.set (controlEntry root dn) (.dir 511)).set (workEntry root dn)
        (.dir 511)).set ((controlEntry root dn).join "work")
        (.symlink (workEntry root dn))) := by
    unfold FS.symlinkTo
    rw [FS.pathExists_set_ne _ _ _ _ n4, FS.pathExists_set_ne _ _ _ _ n3, hcw,
      Path.parent_join, FS.pathExists_set_ne _ _ _ _ n1.symm, FS.pathExists_set_self]
    simp
  have e4 : (((fs.set (controlEntry root dn) (.dir 511)).set (workEntry root dn)
        (.dir 511)).set ((controlEntry root dn).join "work")
        (.symlink (workEntry root dn))).mkdirP (controlEntry root dn) 511 =
      .error (.alreadyExists (controlEntry root dn)) := by
    unfold FS.mkdirP
    rw [FS.pathExists_set_ne _ _ _ _ n3.symm, FS.pathExists_set_ne _ _ _ _ n1.symm,
      FS.pathExists_set_self]
    simp
  have e4d : ((fs.set (controlEntry root dn) (.dir 511)).set (dataEntry root dn)
        (.dir 511)).mkdirP (controlEntry root dn) 511 =
      .error (.alreadyExists (controlEntry root dn)) := by
    unfold FS.mkdirP
    rw [FS.pathExists_set_ne _ _ _ _ n2.symm, FS.pathExists_set_self]
    simp
  constructor
  · simp only [add_analysis, ← hdn, e1, e2, e3, e4]
    refine ⟨trivial, ?_, ?_, ?_, ?_, trivial⟩
    · simp [FS.lookup_set, n3.symm, n1.symm]
    · simp [FS.lookup_set, n4.symm]
    · simp [FS.lookup_set]
    · intro q h1 h2 h3
      simp [FS.lookup_set, h1, h2, h3]
  · simp only [add_data, ← hdn, e1, e2d, e4d]
    refine ⟨trivial, ?_, ?_, ?_, trivial⟩
    · simp [FS.lookup_set, n2.symm]
    · simp [FS.lookup_set]
    · intro q h1 h2
      simp [FS.lookup_set, h1, h2]

theorem addEntry_witness :
    (add_analysis demoFS0 demoRoot "a" false "d").2 = .ok ∧
    (add_data demoFS0 demoRoot "a" false "d").2 = .ok ∧
    add_analysis (add_analysis demoFS0 demoRoot "a" false "d").1 demoRoot "a" false "d" =
      ((add_analysis demoFS0 demoRoot "a" false "d").1,
       .fatal (.alreadyExists (controlEntry demoRoot "a"))) := by
  have h := addEntry_pair_and_rerun_rejected demoFS0 demoRoot "a" "d" "a" false
    (by decide) (by decide) (by decide) (by decide) (by decide) (by decide)
    (by decide) (by decide)
  exact ⟨h.1.1, h.2.1, h.1.2.2.2.2.2⟩

/-! ## Claim C6 -/

/-- The symlink-safety discipline of an operation list: every symlink step's
target was the path of an earlier mkdir step. -/
def targetsPreceded (made : List Path) : List Op → Prop
  | [] => True
  | .mkdirP p _ :: rest => targetsPreceded (p :: made) rest
  | .mkdir1 p _ :: rest => targetsPreceded (p :: made) rest
  | .symlink _ t :: rest => t ∈ made ∧ targetsPreceded made rest
  | .writeF _ :: rest => targetsPreceded made rest

lemma applyOp_mono (fs fs' : FS) (op : Op) (h : applyOp fs op = .ok fs') (q : Path)
    (hq : fs.pathExists q = true) : fs'.pathExists q = true := by
  cases op with
  | mkdirP p m =>
    simp only [applyOp] at h
    obtain ⟨rfl, -⟩ := FS.mkdirP_ok _ _ _ _ h
    exact FS.pathExists_set_mono _ _ _ _ (FS.pathExists_mkParents_mono _ _ _ hq)
  | mkdir1 p m =>
    simp only [applyOp] at h
    obtain ⟨rfl, -⟩ := FS.mkdir1_ok _ _ _ _ h
    exact FS.pathExists_set_mono _ _ _ _ hq
  | symlink p t =>
    simp only [applyOp] at h
    obtain ⟨rfl, -⟩ := FS.symlinkTo_ok _ _ _ _ h
    exact FS.pathExists_set_mono _ _ _ _ hq
  | writeF p =>
    simp only [applyOp, Except.ok.injEq] at h
    subst h
    exact FS.pathExists_set_mono _ _ _ _ hq

lemma applyOp_symlink_char (fs fs' : FS) (op : Op) (h : applyOp fs op = .ok fs')
    (q t : Path) (hq : fs' q = some (.symlink t)) :
    fs q = some (.symlink t) ∨ op = .symlink q t := by
  cases op with
  | mkdirP p m =>
    simp only [applyOp] at h
    obtain ⟨rfl, -⟩ := FS.mkdirP_ok _ _ _ _ h
    simp only [FS.set] at hq
    by_cases hqp : q = p
    · rw [if_pos hqp] at hq
      simp at hq
    · rw [if_neg hqp] at hq
      exact Or.inl (FS.lookup_mkParents_symlink _ _ _ _ hq)
  | mkdir1 p m =>
    simp only [applyOp] at h
    obtain ⟨rfl, -⟩ := FS.mkdir1_ok _ _ _ _ h
    simp only [FS.set] at hq
    by_cases hqp : q = p
    · rw [if_pos hqp] at hq
      simp at hq
    · rw [if_neg hqp] at hq
      exact Or.inl hq
  | symlink p tt =>
    simp only [applyOp] at h
    obtain ⟨rfl, -⟩ := FS.symlinkTo_ok _ _ _ _ h
    simp only [FS.set] at hq
    by_cases hqp : q = p
    · rw [if_pos hqp] at hq
      simp only [Option.some.injEq, Node.symlink.injEq] at hq
      exact Or.inr (by rw [hqp, hq])
  
    · rw [if_neg hqp] at hq
      exact Or.inl hq
  | writeF p =>
    simp only [applyOp, Except.ok.injEq] at h
    subst h
    simp only [FS.writeFile, FS.set] at hq
    by_cases hqp : q = p
    · rw [if_pos hqp] at hq
      simp at hq
    · rw [if_neg hqp] at hq
      exact Or.inl hq

lemma runOps_symlink_safe (ops : List Op) :
    ∀ (fs0 fs : FS) (made : List Path) (k : Nat),
    (∀ q ∈ made, fs.pathExists q = true) →
    (∀ p t, fs p = some (.symlink t) → fs0 p = some (.symlink t) ∨ fs.pathExists t = true) →
    targetsPreceded made ops →
    ∀ p t, (runOps fs (ops.take k)).1 p = some (.symlink t) →
      fs0 p = some (.symlink t) ∨ ((runOps fs (ops.take k)).1).pathExists t = true := by
  induction ops with
  | nil =>
    intro fs0 fs made k hmade hold hgood p t hp
    rw [List.take_nil] at hp ⊢
    exact hold p t hp
  | cons op rest ih =>
    intro fs0 fs made k hmade hold hgood p t hp
    cases k with
    | zero => exact hold p t hp
    | succ k =>
      rw [List.take_succ_cons, runOps_cons] at hp ⊢
      cases ha : applyOp fs op with
      | error e =>
        rw [ha] at hp
        exact hold p t hp
      | ok fs1 =>
        rw [ha] at hp
        have hmono : ∀ q, fs.pathExists q = true → fs1.pathExists q = true :=
          fun q hq => applyOp_mono _ _ _ ha q hq
        cases op with
        | mkdirP pp m =>
          refine ih fs0 fs1 (pp :: made) k ?_ ?_ hgood p t hp
          · intro q hq
            rcases List.mem_cons.mp hq with rfl | hq
            · have ha2 : FS.mkdirP fs q m = .ok fs1 := by simpa [applyOp] using ha
              obtain ⟨rfl, -⟩ := FS.mkdirP_ok _ _ _ _ ha2
              exact FS.pathExists_set_self _ _ _
            · exact hmono q (hmade q hq)
          · intro p' t' hp'
            rcases applyOp_symlink_char _ _ _ ha _ _ hp' with hh | hh
            · rcases hold p' t' hh with h2 | h2
              · exact Or.inl h2
              · exact Or.inr (hmono _ h2)
            · cases hh
        | mkdir1 pp m =>
          refine ih fs0 fs1 (pp :: made) k ?_ ?_ hgood p t hp
          · intro q hq
            rcases List.mem_cons.mp hq with rfl | hq
            · have ha2 : FS.mkdir1 fs q m = .ok fs1 := by simpa [applyOp] using ha
              obtain ⟨rfl, -⟩ := FS.mkdir1_ok _ _ _ _ ha2
              exact FS.pathExists_set_self _ _ _
            · exact hmono q (hmade q hq)
          · intro p' t' hp'
            rcases applyOp_symlink_char _ _ _ ha _ _ hp' with hh | hh
            · rcases hold p' t' hh with h2 | h2
              · exact Or.inl h2
              · exact Or.inr (hmono _ h2)
            · cases hh
        | symlink pp tt =>
          obtain ⟨hg1, hgood2⟩ := hgood
          refine ih fs0 fs1 made k ?_ ?_ hgood2 p t hp
          · intro q hq
            exact hmono q (hmade q hq)
          · intro p' t' hp'
            rcases applyOp_symlink_char _ _ _ ha _ _ hp' with hh | hh
            · rcases hold p' t' hh with h2 | h2
              · exact Or.inl h2
              · exact Or.inr (hmono _ h2)
            · injection hh with h1 h2
              subst h1
              subst h2
              exact Or.inr (hmono _ (hmade tt hg1))
        | writeF pp =>
          refine ih fs0 fs1 made k ?_ ?_ hgood p t hp
          · intro q hq
            exact hmono q (hmade q hq)
          · intro p' t' hp'
            rcases applyOp_symlink_char _ _ _ ha _ _ hp' with hh | hh
            · rcases hold p' t' hh with h2 | h2
              · exact Or.inl h2
              · exact Or.inr (hmono _ h2)
            · cases hh

/-- C6: in every execution of the setup sequence the scratch-side targets
`linkto/src.name/work` and `linkto/src.name/data` are the first two steps,
created before any part of the home tree; consequently, after every prefix
of the execution (so also when a later step fails), every symlink present
that was not already in the initial state has an existing target. -/
theorem setup_targets_before_symlinks (cwd src linkto : Path) (git : Bool)
    (fs : FS) (k : Nat) :
    (setupOps cwd src linkto git).take 2 =
      [.mkdirP ((linkto.join src.name).join "work") 511,
       .mkdirP ((linkto.join src.name).join "data") 511] ∧
    ∀ p t, (runOps fs ((setupOps cwd src linkto git).take k)).1 p = some (.symlink t) →
      fs p = some (.symlink t) ∨
      ((runOps fs ((setupOps cwd src linkto git).take k)).1).pathExists t = true := by
  constructor
  · rfl
  · intro p t hp
    refine runOps_symlink_safe (setupOps cwd src linkto git) fs fs [] k ?_ ?_ ?_ p t hp
    · intro q hq
      simp at hq
    · intro p' t' h
      exact Or.inl h
    · cases git <;> simp [setupOps, targetsPreceded]

theorem setup_targets_witness :
    emptyFS (demoSrcArg.join "work") =
      some (.symlink ⟨false, ["scratch", "proj", "work"]⟩) ∨
    ((runOps emptyFS ((setupOps demoCwd demoSrcArg demoLinkArg false).take 10)).1).pathExists
      ⟨false, ["scratch", "proj", "work"]⟩ = true :=
  (setup_targets_before_symlinks demoCwd demoSrcArg demoLinkArg false emptyFS 10).2
    (demoSrcArg.join "work") ⟨false, ["scratch", "proj", "work"]⟩ (by decide)

/-! ## Claim C7 -/

/-- C7: `rename_analysis` invoked with the dry-run flag performs zero
filesystem mutation, for every state and every old/new pair, whether or not
the preconditions (old exists, new absent) are satisfiable. -/
theorem rename_dry_run_no_mutation (fs : FS) (root : Path) (old new : String) :
    (rename_analysis fs root old new true).1 = fs := by
  simp only [rename_analysis]
  split
  · rfl
  · split
    · rfl
    · rfl

/-! ## Claim C10 -/

/-- C10: `freeze` changes the permission bits of the given path only — no
descendant of a frozen directory is modified — and the recursive flag has no
effect on behaviour. -/
theorem freeze_ignores_recursive_and_descendants (fs : FS) (p : Path)
    (r : Bool) (q : Path) (hq : q ≠ p) :
    freeze fs p r = freeze fs p false ∧ (freeze fs p r).lookup q = fs.lookup q := by
  refine ⟨rfl, ?_⟩
  unfold freeze chmodPath FS.lookup
  split <;> simp [hq]

theorem freeze_ignores_recursive_witness :
    freeze demoFreezeFS demoRoot true = freeze demoFreezeFS demoRoot false ∧
    (freeze demoFreezeFS demoRoot true).lookup (demoRoot.join "f.txt") =
      demoFreezeFS.lookup (demoRoot.join "f.txt") :=
  freeze_ignores_recursive_and_descendants demoFreezeFS demoRoot true
    (demoRoot.join "f.txt") (by decide)

/-! ## Claim C9 -/

/-- C9: `freeze` on a regular file sets exactly the owner/group read bits
plus the sticky bit (non-writable, non-executable); on a directory it sets
the same bits plus the owner/group execute bits, so the directory remains
listable while being non-writable. -/
theorem freeze_file_and_dir_modes (fs : FS) (p : Path) (r : Bool) (m : Nat) :
    (fs.lookup p = some (.file m) →
      (freeze fs p r).lookup p = some (.file (S_IREAD ||| S_IRGRP ||| S_ISVTX)) ∧
      (S_IREAD ||| S_IRGRP ||| S_ISVTX) &&& 0o222 = 0 ∧
      (S_IREAD ||| S_IRGRP ||| S_ISVTX) &&& 0o111 = 0 ∧
      (S_IREAD ||| S_IRGRP ||| S_ISVTX) = 0o1440) ∧
    (fs.lookup p = some (.dir m) →
      (freeze fs p r).lookup p =
        some (.dir (S_IREAD ||| S_IRGRP ||| S_ISVTX ||| S_IXUSR ||| S_IXGRP)) ∧
      (S_IREAD ||| S_IRGRP ||| S_ISVTX ||| S_IXUSR ||| S_IXGRP) &&& 0o222 = 0 ∧
      (S_IREAD ||| S_IRGRP ||| S_ISVTX ||| S_IXUSR ||| S_IXGRP) &&& S_IXUSR ≠ 0 ∧
      (S_IREAD ||| S_IRGRP ||| S_ISVTX ||| S_IXUSR ||| S_IXGRP) &&& S_IXGRP ≠ 0) := by
  constructor
  · intro h
    have h' : fs p = some (.file m) := h
    have hd : fs.isDir p = false := by unfold FS.isDir; rw [h']
    refine ⟨?_, by decide, by decide, by decide⟩
    unfold freeze
    rw [hd]
    simp [chmodPath, FS.lookup, h', Node.withMode]
  · intro h
    have h' : fs p = some (.dir m) := h
    have hd : fs.isDir p = true := by unfold FS.isDir; rw [h']
    refine ⟨?_, by decide, by decide, by decide⟩
    unfold freeze
    rw [hd]
    simp [chmodPath, FS.lookup, h', Node.withMode]

theorem freeze_modes_witness :
    ((freeze demoFreezeFS (demoRoot.join "f.txt") false).lookup (demoRoot.join "f.txt") =
      some (.file (S_IREAD ||| S_IRGRP ||| S_ISVTX))) ∧
    ((freeze demoFreezeFS demoRoot false).lookup demoRoot =
      some (.dir (S_IREAD ||| S_IRGRP ||| S_ISVTX ||| S_IXUSR ||| S_IXGRP))) :=
  ⟨((freeze_file_and_dir_modes demoFreezeFS (demoRoot.join "f.txt") false 420).1
      (by decide)).1,
   ((freeze_file_and_dir_modes demoFreezeFS demoRoot false 511).2 (by decide)).1⟩

/-! ## Claim C8 -/

lemma statusTokens_flatten_length (l : List StatusLine) :
    ((l.map (fun s => [s.code, s.fname])).flatten).length = 2 * l.length := by
  induction l with
  | nil => rfl
  | cons a t ih =>
    simp only [List.map_cons, List.flatten_cons, List.length_append,
      List.length_cons, ih]
    simp
    omega

lemma statusTokens_length (g : GitState) :
    (statusTokens g).length = 2 * g.pending.length :=
  statusTokens_flatten_length g.pending

/-- C8: `save` with a clean working tree performs zero commits and leaves
`metadata.last_commit` unchanged; `save` with pending (modified, deleted, or
untracked) changes produces exactly one new commit and updates
`metadata.last_commit` to that commit's identifier. -/
theorem save_snapshot_behavior (g : GitState) (meta : ProjectMeta) :
    (g.pending = [] →
      (save g meta).1.commits = g.commits ∧
      (save g meta).2.lastCommit = meta.lastCommit) ∧
    (g.pending ≠ [] →
      (save g meta).1.commits = g.commits.length :: g.commits ∧
      (save g meta).2.lastCommit = some g.commits.length) := by
  have hg1p : (if g.inTree then g else { g with inTree := true }).pending = g.pending := by
    split <;> rfl
  have hg1c : (if g.inTree then g else { g with inTree := true }).commits = g.commits := by
    split <;> rfl
  constructor
  · intro h
    simp only [save]
    rw [if_pos]
    · exact ⟨hg1c, rfl⟩
    · rw [statusTokens_length, hg1p, h]
      simp
  · intro h
    simp only [save]
    rw [if_neg]
    · constructor <;> simp [freshId, hg1c]
    · rw [statusTokens_length, hg1p]
      have hz : g.pending.length ≠ 0 := fun hl => h (List.length_eq_zero.mp hl)
      omega

theorem save_snapshot_witness :
    ((save ⟨true, [], [5]⟩ ⟨some 5⟩).1.commits = [5] ∧
      (save ⟨true, [], [5]⟩ ⟨some 5⟩).2.lastCommit = some 5) ∧
    ((save ⟨true, [⟨"M", "x"⟩], [5]⟩ ⟨some 5⟩).1.commits = 1 :: [5] ∧
      (save ⟨true, [⟨"M", "x"⟩], [5]⟩ ⟨some 5⟩).2.lastCommit = some 1) :=
  ⟨(save_snapshot_behavior ⟨true, [], [5]⟩ ⟨some 5⟩).1 rfl,
   (save_snapshot_behavior ⟨true, [⟨"M", "x"⟩], [5]⟩ ⟨some 5⟩).2 (by decide)⟩

end Makebio
